import Mathlib

/-!
# Verification of the SheHacks-X cotton-finder core

Shallow embedding of the composition-extraction and product-normalization
pipeline of the `my-app/server` codebase: the composition parser
(`scraper/compositionParser.js`), category/gender/color derivation
(`scraper/zaraScraper.js`, `scraper.js`, `scrape-curated-urls.js`),
category normalization (`server.js`), the Mongo upsert repository
(`db/repositories.js`), the batch ingestion loops, and the `searchZara`
result cache.

Strings are modelled as `List Char`; JavaScript strings are lowered with
an ASCII `toLowerCase`.  Regex scans are modelled operationally as
left-to-right scanners (fuel-indexed structural recursion, fuel = string
length, which is always sufficient since each step consumes at least one
character).
-/

namespace CottonFinder

/-- Character list of a string literal. -/
def chars (s : String) : List Char := s.data

/-- ASCII decimal digit test (regex `\d`). -/
def isDigitCh (c : Char) : Bool := '0' ≤ c && c ≤ '9'

/-- ASCII letter test (regex `[a-zA-Z]`). -/
def isAlphaCh (c : Char) : Bool := ('a' ≤ c && c ≤ 'z') || ('A' ≤ c && c ≤ 'Z')

/-- Whitespace test (regex `\s`, restricted to the ASCII whitespace that
occurs in composition strings). -/
def isSpaceCh (c : Char) : Bool := c = ' ' || c = '\t' || c = '\n' || c = '\r'

/-- Character class `[a-zA-Z\s]` of the fiber-name capture group. -/
def isFiberCh (c : Char) : Bool := isAlphaCh c || isSpaceCh c

/-- ASCII `toLowerCase` on one character. -/
def toLowerCh (c : Char) : Char :=
  if 'A' ≤ c && c ≤ 'Z' then Char.ofNat (c.toNat + 32) else c

/-- JavaScript `String.prototype.toLowerCase` (ASCII fragment). -/
def lowerStr (s : List Char) : List Char := s.map toLowerCh

/-- `needle` is a prefix of `hay` (`String.prototype.startsWith`). -/
def startsWithCh : List Char → List Char → Bool
  | [], _ => true
  | _ :: _, [] => false
  | a :: as, b :: bs => a = b && startsWithCh as bs

/-- `hay.includes(needle)` : substring containment. -/
def containsCh (hay needle : List Char) : Bool :=
  match hay with
  | [] => needle.isEmpty
  | _ :: t => startsWithCh needle hay || containsCh t needle

/-- `String.prototype.trim` (whitespace from both ends). -/
def trimCh (s : List Char) : List Char :=
  ((s.dropWhile isSpaceCh).reverse.dropWhile isSpaceCh).reverse

/-- Split on whitespace runs, dropping empty pieces
(the effect of `/​\s+/` splitting on an already-trimmed string). -/
def wordsCh : List Char → List (List Char)
  | [] => []
  | c :: t =>
    if isSpaceCh c then wordsCh t
    else
      match wordsCh t with
      | [] => [[c]]
      | w :: ws =>
        -- a word continues while no whitespace separated it from `c`;
        -- decided by whether `t` starts with whitespace
        match t with
        | [] => [[c]]
        | c' :: _ => if isSpaceCh c' then [c] :: w :: ws else (c :: w) :: ws

/-- `fiber.split(/\s+/).join(' ')` on a trimmed string: collapse each
whitespace run to a single space. -/
def cleanFiber (s : List Char) : List Char :=
  (wordsCh s).intersperse [' '] |>.flatten

/-- Numeric value of a digit string (`parseFloat`/`parseInt` on `\d{1,3}`). -/
def digitsVal (ds : List Char) : Nat :=
  ds.foldl (fun acc c => acc * 10 + (c.toNat - 48)) 0

/-- The lowercase literal `"cotton"`. -/
def cottonStr : List Char := ['c', 'o', 't', 't', 'o', 'n']

/-!
## CompositionParser (`server/scraper/compositionParser.js`)

`parseComposition` scans the lowercased text with the global regex
`/(\d{1,3})%\s*([a-zA-Z\s]+)/g`.  A match at a position requires: the
maximal digit run there has length 1–3 (a longer run can never be
followed by `%` within 3 digits, so the match start shifts right), then
`%`, then a non-empty run of `[a-zA-Z\s]` (the greedy `\s*` only moves
whitespace out of the capture, which the subsequent `.trim()` erases, so
only the trimmed capture and the total consumed length matter).
Scanning resumes after the consumed match.
-/

/-- One attempted match of `(\d{1,3})%\s*([a-zA-Z\s]+)` at the head of
`s`.  Returns `(percent, raw capture-2 run, total consumed length)`. -/
def matchPercentAt (s : List Char) : Option (Nat × List Char × Nat) :=
  let ds := s.takeWhile isDigitCh
  let r := ds.length
  if 1 ≤ r && r ≤ 3 then
    match s.drop r with
    | '%' :: t =>
      let fib := t.takeWhile isFiberCh
      if fib.isEmpty then none
      else some (digitsVal ds, fib, r + 1 + fib.length)
    | _ => none
  else none

/-- `text.matchAll(pattern)` as a left-to-right scan; fuel-indexed
(structural) with fuel consumed one unit per scan step.  Each step
either advances one character or consumes a whole match (≥ 3 chars), so
`fuel = s.length` always suffices. -/
def compMatchesF : Nat → List Char → List (Nat × List Char)
  | 0, _ => []
  | _, [] => []
  | fuel + 1, c :: t =>
    match matchPercentAt (c :: t) with
    | some (p, fib, n) => (p, fib) :: compMatchesF fuel ((c :: t).drop n)
    | none => compMatchesF fuel t

/-- All regex matches of the composition pattern over `s`. -/
def compMatches (s : List Char) : List (Nat × List Char) :=
  compMatchesF s.length s

/-- `composition[fiberClean] = percent`: JS object assignment keeps the
first-insertion position of a key and overwrites its value. -/
def updateAssoc (m : List (List Char × Nat)) (k : List Char) (v : Nat) :
    List (List Char × Nat) :=
  match m with
  | [] => [(k, v)]
  | (k', v') :: t => if k' = k then (k, v) :: t else (k', v') :: updateAssoc t k v

/-- The loop body over all matches building the fiber → percent map
(later matches for the same cleaned fiber name overwrite). -/
def collectComposition : List (Nat × List Char) → List (List Char × Nat) →
    List (List Char × Nat)
  | [], acc => acc
  | (p, f) :: rest, acc =>
      collectComposition rest (updateAssoc acc (cleanFiber (trimCh f)) p)

/-- `cottonPercents`: the percent of every match whose trimmed fiber
name contains `"cotton"`, in match order. -/
def collectCottonPercents (ms : List (Nat × List Char)) : List Nat :=
  (ms.filter fun m => containsCh (trimCh m.2) cottonStr).map (·.1)

/-- Result of `parseComposition`. -/
structure ParseResult where
  composition : List (List Char × Nat)
  isCotton90 : Bool
deriving DecidableEq, Repr

/-- `parseComposition(text)` from `compositionParser.js` lines 11–50:
lowercases, collects all `<digits>% <fiber>` matches into the map, and
sets `isCotton90` iff some match with a cotton-containing fiber name has
percent ≥ 90.  (An empty input produces no matches, giving the same
`{composition: {}, isCotton90: false}` as the explicit falsy guard.) -/
def parseComposition (text : List Char) : ParseResult :=
  let ms := compMatches (lowerStr text)
  { composition := collectComposition ms []
    isCotton90 := (collectCottonPercents ms).any fun p => 90 ≤ p }

/-- One attempted match of `/(\d{1,3})%\s*cotton/i` at the head of `s`
(on already-lowercased text): digit run of length 1–3, `%`, then after
the maximal whitespace run the literal `cotton`. -/
def cottonMatchAt (s : List Char) : Option Nat :=
  let ds := s.takeWhile isDigitCh
  let r := ds.length
  if 1 ≤ r && r ≤ 3 then
    match s.drop r with
    | '%' :: t =>
      if startsWithCh cottonStr (t.dropWhile isSpaceCh) then some (digitsVal ds)
      else none
    | _ => none
  else none

/-- Left-to-right scan for the first `(\d{1,3})%\s*cotton` match
(fuel-indexed; advances one character per step). -/
def getCottonPercentageF : Nat → List Char → Nat
  | 0, _ => 0
  | _, [] => 0
  | fuel + 1, c :: t =>
    match cottonMatchAt (c :: t) with
    | some v => v
    | none => getCottonPercentageF fuel t

/-- `getCottonPercentage(text)` from `compositionParser.js` lines 57–70:
value of the first `<digits>% cotton` occurrence, else 0 (also 0 for
empty input, where the scan finds nothing). -/
def getCottonPercentage (text : List Char) : Nat :=
  getCottonPercentageF text.length (lowerStr text)

/-!
## Category / gender / color derivation
(`scraper/zaraScraper.js` lines 578–612, `scraper.js` lines 12–22,
`scrape-curated-urls.js` lines 63–73 & 119–136)
-/

/-- `ZaraScraper.determineCategory(url, name, desc)`
(`zaraScraper.js` lines 578–602): substring checks over
`urlLower nameLower descLower` joined by spaces, then URL-path
fallbacks, else `"unknown"`. -/
def determineCategory (url name desc : List Char) : List Char :=
  let urlLower := lowerStr url
  let combined := urlLower ++ [' '] ++ lowerStr name ++ [' '] ++ lowerStr desc
  if containsCh combined (chars "dress") then chars "dresses"
  else if containsCh combined (chars "shirt") || containsCh combined (chars "shirt") then
    chars "shirts"
  else if containsCh combined (chars "trouser") || containsCh combined (chars "pant")
      || containsCh combined (chars "jean") then chars "pants"
  else if containsCh combined (chars "tshirt") || containsCh combined (chars "t-shirt")
      || containsCh combined (chars "tee") then chars "tshirts"
  else if containsCh combined (chars "top") && !containsCh combined (chars "tshirt") then
    chars "tops"
  else if containsCh combined (chars "skirt") then chars "skirts"
  else if containsCh combined (chars "jacket") then chars "jackets"
  else if containsCh urlLower (chars "/dresses") then chars "dresses"
  else if containsCh urlLower (chars "/shirts") then chars "shirts"
  else if containsCh urlLower (chars "/trousers") || containsCh urlLower (chars "/pants") then
    chars "pants"
  else if containsCh urlLower (chars "/t-shirts") || containsCh urlLower (chars "/tshirts") then
    chars "tshirts"
  else if containsCh urlLower (chars "/tops") then chars "tops"
  else if containsCh urlLower (chars "/skirts") then chars "skirts"
  else if containsCh urlLower (chars "/jackets") then chars "jackets"
  else chars "unknown"

/-- `ZaraScraper.determineGender(url)` (`zaraScraper.js` lines 607–612). -/
def determineGender (url : List Char) : List Char :=
  let urlLower := lowerStr url
  if containsCh urlLower (chars "/man") || containsCh urlLower (chars "/men") then
    chars "male"
  else if containsCh urlLower (chars "/woman") || containsCh urlLower (chars "/women") then
    chars "female"
  else chars "unknown"

/-- `charAt(0).toUpperCase() + slice(1)` (ASCII). -/
def capitalizeFirst : List Char → List Char
  | [] => []
  | c :: t => (if 'a' ≤ c && c ≤ 'z' then Char.ofNat (c.toNat - 32) else c) :: t

/-- Color keyword list of `scraper.js` `extractColor` (line 13). -/
def scraperColors : List (List Char) :=
  [chars "black", chars "white", chars "blue", chars "red", chars "green",
   chars "navy", chars "grey", chars "gray", chars "beige", chars "brown",
   chars "pink", chars "yellow"]

/-- `extractColor(name, description)` from `scraper.js` lines 12–22:
first keyword contained in `` `${name} ${description}` `` lowercased,
capitalized; default `"Various"`. -/
def extractColor (name description : List Char) : List Char :=
  let text := lowerStr (name ++ [' '] ++ description)
  match scraperColors.find? fun c => containsCh text c with
  | some c => capitalizeFirst c
  | none => chars "Various"

/-- Color keyword list of `scrape-curated-urls.js` `extractColor`
(line 64; adds pattern words). -/
def curatedColors : List (List Char) :=
  scraperColors ++ [chars "striped", chars "floral", chars "plaid", chars "animal print"]

/-- `extractColor` from `scrape-curated-urls.js` lines 63–73
(capitalizes each space-separated word of the matched keyword). -/
def curatedExtractColor (name description : List Char) : List Char :=
  let text := lowerStr (name ++ [' '] ++ description)
  match curatedColors.find? fun c => containsCh text c with
  | some c => ((wordsCh c).map capitalizeFirst).intersperse [' '] |>.flatten
  | none => chars "Various"

/-- Name-based category override of `scrape-curated-urls.js` lines
119–136: the curated list's bucket `category` is kept only when the
product-name signal agrees or is absent. -/
def curatedNormalizeCategory (category nameLower : List Char) : List Char :=
  if containsCh nameLower (chars "t-shirt") || containsCh nameLower (chars "tshirt")
      || containsCh nameLower (chars "tee") || containsCh nameLower (chars "blouse")
      || containsCh nameLower (chars "shirt") || category = chars "tops" then
    chars "tops"
  else if containsCh nameLower (chars "pant") || containsCh nameLower (chars "jean")
      || containsCh nameLower (chars "trouser") || category = chars "pants" then
    chars "pants"
  else if containsCh nameLower (chars "skirt") || category = chars "skirts" then
    chars "skirts"
  else if containsCh nameLower (chars "dress") || category = chars "dresses" then
    chars "dresses"
  else category

/-!
## CategoryNormalizer (`server/server.js` lines 349–389)
-/

/-- `getCategoryVariations(normalizedCategory)` (`server.js` lines
349–358): surface-form synonyms per canonical category; unknown inputs
map to the singleton of themselves. -/
def getCategoryVariations (normalizedCategory : List Char) : List (List Char) :=
  if normalizedCategory = chars "tops" then
    [chars "tops", chars "top", chars "tshirts", chars "tshirt", chars "t-shirt",
     chars "t-shirts", chars "shirt", chars "shirts", chars "blouse", chars "blouses"]
  else if normalizedCategory = chars "pants" then
    [chars "pants", chars "pant", chars "jeans", chars "jean", chars "trousers",
     chars "trouser"]
  else if normalizedCategory = chars "skirts" then
    [chars "skirts", chars "skirt"]
  else if normalizedCategory = chars "dresses" then
    [chars "dresses", chars "dress"]
  else [normalizedCategory]

/-- Tops rule of `normalizeCategory` (substring `t-shirt`/`tshirt`/`tee`/
`blouse`, or exact `shirt`/`shirts`/`top`/`tops`), on lowercased input. -/
def topsSignal (lower : List Char) : Bool :=
  containsCh lower (chars "t-shirt") || containsCh lower (chars "tshirt")
    || containsCh lower (chars "tee") || containsCh lower (chars "blouse")
    || lower = chars "shirt" || lower = chars "shirts"
    || lower = chars "top" || lower = chars "tops"

/-- Pants rule of `normalizeCategory`. -/
def pantsSignal (lower : List Char) : Bool :=
  containsCh lower (chars "pant") || containsCh lower (chars "jean")
    || containsCh lower (chars "trouser")

/-- Skirts rule of `normalizeCategory`. -/
def skirtsSignal (lower : List Char) : Bool := containsCh lower (chars "skirt")

/-- Dresses rule of `normalizeCategory`. -/
def dressesSignal (lower : List Char) : Bool := containsCh lower (chars "dress")

/-- `normalizeCategory(categoryName)` (`server.js` lines 361–389):
falsy input (absent or empty string) yields `null`; otherwise the rules
are tried in order tops, pants, skirts, dresses, and with no match the
lowercased input is returned unchanged. -/
def normalizeCategory (categoryName : Option (List Char)) : Option (List Char) :=
  match categoryName with
  | none => none
  | some s =>
    if s = [] then none
    else
      let lower := lowerStr s
      if topsSignal lower then some (chars "tops")
      else if pantsSignal lower then some (chars "pants")
      else if skirtsSignal lower then some (chars "skirts")
      else if dressesSignal lower then some (chars "dresses")
      else some lower

/-!
## Product data model

A scraped/mock product object as it flows to persistence.  Fields that a
JavaScript product object may lack (`undefined`) are `Option`; `none`
models an absent field.  Prices are rationals (JS numbers such as
`25.99`).
-/

/-- Stringification of a possibly-absent JS string (template literals
render `undefined` as the text `"undefined"`). -/
def jsShow (o : Option (List Char)) : List Char :=
  match o with
  | some s => s
  | none => chars "undefined"

/-- `v || d` for JS strings: `undefined`, `null` and `""` fall back. -/
def jsOrStr (v : Option (List Char)) (d : List Char) : List Char :=
  match v with
  | none => d
  | some s => if s = [] then d else s

/-- A product object (as returned by `ZaraScraper.extractProductInfo`,
`getMockProducts`, or the curated scraper). -/
structure Product where
  pid : Option (List Char) := none
  name : List Char
  site : Option (List Char) := none
  brand : Option (List Char) := none
  price : Option Int := none
  currency : Option (List Char) := none
  cottonPercentage : Option Nat := none
  materials : Option (List Char) := none
  composition_parsed : Option (List (List Char × Nat)) := none
  is_cotton_90 : Option Bool := none
  images : Option (List (List Char)) := none
  image : Option (List Char) := none
  sizes_available : Option (List (List Char)) := none
  category : Option (List Char) := none
  gender : Option (List Char) := none
  color : Option (List Char) := none
  isCurated : Option Bool := none
  url : List Char
deriving DecidableEq, Repr

/-- Raw page-extraction output (`productData` of
`ZaraScraper.extractProductInfo`'s `page.evaluate`): every field is
produced with a concrete default by the selectors, so none is absent. -/
structure RawProductData where
  name : List Char
  price : Int
  materials : List Char
  images : List (List Char)
  sizes : List (List Char)
deriving DecidableEq, Repr

/-- `url.match(/p(\d+)/)?.[1]`: digits after the first `p` that is
immediately followed by a digit. -/
def extractPid : List Char → Option (List Char)
  | [] => none
  | c :: t =>
    let ds := t.takeWhile isDigitCh
    if c = 'p' && !ds.isEmpty then some ds else extractPid t

/-- The pure tail of `ZaraScraper.extractProductInfo` (`zaraScraper.js`
lines 532–563): category/gender derivation, composition parsing, the
`Unknown Product` validity check, and record assembly.  The
`Math.random()` id fallback is modelled as `pid = none`. -/
def assembleProduct (url : List Char) (d : RawProductData) : Option Product :=
  let category := determineCategory url d.name d.materials
  let gender := determineGender url
  let compositionText := d.materials
  let cottonPercentage := getCottonPercentage compositionText
  let parsed := parseComposition compositionText
  if d.name = [] || d.name = chars "Unknown Product" then none
  else some
    { pid := extractPid url
      name := d.name
      site := some (chars "zara")
      brand := some (chars "Zara")
      price := some d.price
      currency := some (chars "CAD")
      cottonPercentage := some cottonPercentage
      materials := some (if compositionText = [] then
        chars "Material information not available" else compositionText)
      composition_parsed := some parsed.composition
      is_cotton_90 := some parsed.isCotton90
      images := some d.images
      image := some (d.images.headD [])
      sizes_available := some d.sizes
      category := some category
      gender := some gender
      url := url }

/-!
## CatalogRepository (`server/db/repositories.js`)
-/

/-- The MongoDB document written by `productToDict`/`upsertProduct`
(the `$set` part; `createdAt` is handled separately by `$setOnInsert`). -/
structure ProductDoc where
  site : List Char
  url : List Char
  name : List Char
  price : Option Int
  currency : List Char
  category : Option (List Char)
  gender : Option (List Char)
  composition_raw : List Char
  composition_parsed : List (List Char × Nat)
  cottonPercentage : Nat
  is_cotton_90 : Bool
  images : List (List Char)
  image : List Char
  color : List Char
  brand : List Char
  sizes_available : List (List Char)
  updatedAt : Nat
deriving DecidableEq, Repr

/-- `productToDict(product)` (`repositories.js` lines 6–27), with `now`
the wall-clock instant of the `new Date()` call.  JS falsy fallbacks
(`||`) send `undefined`, `null`, `""` and `0` to the default;
`is_cotton_90` keeps the product's own flag when the field is defined
and otherwise falls back to `product.cottonPercentage >= 90` (false
when that field is absent, as `undefined >= 90` is false). -/
def productToDict (p : Product) (now : Nat) : ProductDoc :=
  { site := jsOrStr p.site (chars "zara")
    url := p.url
    name := p.name
    price := match p.price with
      | none => none
      | some q => if q = 0 then none else some q
    currency := jsOrStr p.currency (chars "CAD")
    category := match p.category with
      | none => none
      | some s => if s = [] then none else some s
    gender := match p.gender with
      | none => none
      | some s => if s = [] then none else some s
    composition_raw := (p.materials).getD []
    composition_parsed := (p.composition_parsed).getD []
    cottonPercentage := (p.cottonPercentage).getD 0
    is_cotton_90 := match p.is_cotton_90 with
      | some b => b
      | none => match p.cottonPercentage with
        | some n => decide (90 ≤ n)
        | none => false
    images := match p.images with
      | some l => l
      | none => match p.image with
        | some i => if i = [] then [] else [i]
        | none => []
    image := match p.image with
      | some i => if i = [] then (match p.images with
          | some (h :: _) => h
          | _ => []) else i
      | none => match p.images with
        | some (h :: _) => h
        | _ => []
    color := jsOrStr p.color (chars "Various")
    brand := jsOrStr p.brand (chars "Zara")
    sizes_available := (p.sizes_available).getD []
    updatedAt := now }

/-- A persisted record: the `$set` document plus the insert-only
`createdAt` field. -/
structure StoredDoc where
  doc : ProductDoc
  createdAt : Nat
deriving DecidableEq, Repr

/-- The `updateOne({url}, {$set: doc+updatedAt, $setOnInsert:
{createdAt}}, {upsert:true})` write: update the first document whose
`url` matches, keeping its `createdAt`; insert with `createdAt = now`
when none matches. -/
def upsertGo (d : ProductDoc) (now : Nat) : List StoredDoc → List StoredDoc
  | [] => [⟨d, now⟩]
  | r :: t =>
    if r.doc.url = d.url then ⟨d, r.createdAt⟩ :: t
    else r :: upsertGo d now t

/-- `upsertProduct(product)` (`repositories.js` lines 32–47).  The
filter key `{url: product.url}` coincides with the document's own `url`
field, since `productToDict` copies it verbatim. -/
def upsertProduct (store : List StoredDoc) (p : Product) (now : Nat) :
    List StoredDoc :=
  upsertGo (productToDict p now) now store

/-- `bulkUpsertProducts(products)` (`repositories.js` lines 52–60):
sequential single upserts; each carries its own `new Date()` instant. -/
def bulkUpsertProducts (store : List StoredDoc) (ps : List (Product × Nat)) :
    List StoredDoc :=
  ps.foldl (fun s pt => upsertProduct s pt.1 pt.2) store

/-- Number of stored records with the given URL. -/
def countUrl (store : List StoredDoc) (url : List Char) : Nat :=
  (store.filter fun r => r.doc.url = url).length

/-- First stored record with the given URL. -/
def findUrl (store : List StoredDoc) (url : List Char) : Option StoredDoc :=
  store.find? fun r => r.doc.url = url

/-!
## IngestionPipeline loops
(`scraper.js` lines 90–122, `scrape-curated-urls.js` lines 105–162)

The external per-URL fetch (`extractProductInfo`) is modelled by its
observable outcome: a product, `null` (its internal `catch` returns
`null` on any extraction error), or — for the `scrapeZaraCategory` loop,
which guards each iteration with its own `try/catch ... continue` — a
thrown error.
-/

/-- Outcome of fetching one URL. -/
inductive FetchOutcome where
  | ok (p : Product)
  | failed
  | threw
deriving DecidableEq, Repr

/-- `product.name && product.name !== 'Unknown Product'`. -/
def isValidName (name : List Char) : Bool :=
  !name.isEmpty && name ≠ chars "Unknown Product"

/-- `product.color = extractColor(product.name, product.materials)`
(`scraper.js` line 100 / 46). -/
def withColor (p : Product) : Product :=
  { p with color := some (extractColor p.name (jsShow p.materials)) }

/-- Per-URL loop of `scrapeZaraCategory` (`scraper.js` lines 90–122):
stop once `count` products are found; a thrown fetch is caught and the
loop continues; a `null` fetch adds nothing; a product gets its color
set and is appended when its name is valid. -/
def scrapeZaraCategoryLoop (count : Nat) :
    List FetchOutcome → List Product → Nat → List Product
  | [], acc, _ => acc
  | o :: rest, acc, found =>
    if count ≤ found then acc
    else
      match o with
      | .ok p =>
        let p' := withColor p
        if isValidName p'.name then
          scrapeZaraCategoryLoop count rest (acc ++ [p']) (found + 1)
        else scrapeZaraCategoryLoop count rest acc found
      | .failed => scrapeZaraCategoryLoop count rest acc found
      | .threw => scrapeZaraCategoryLoop count rest acc found

/-- Per-product processing of the curated loop
(`scrape-curated-urls.js` lines 113–141): color, name-based category
override, curated flag. -/
def curatedProcess (category : List Char) (p : Product) : Product :=
  { p with
    color := some (curatedExtractColor p.name (jsShow p.materials))
    category := some (curatedNormalizeCategory category (lowerStr p.name))
    isCurated := some true }

/-- Per-URL loop of `scrapeCuratedUrls` for one category bucket
(`scrape-curated-urls.js` lines 105–162).  `extractProductInfo` catches
internally and returns `null` on failure, so each outcome is an
`Option Product`; a `null` or invalid-name outcome is logged and
skipped, and the loop continues with the remaining URLs. -/
def scrapeCuratedLoop (category : List Char) :
    List (Option Product) → List Product → List Product
  | [], acc => acc
  | o :: rest, acc =>
    match o with
    | some p =>
      if isValidName p.name then
        scrapeCuratedLoop category rest (acc ++ [curatedProcess category p])
      else scrapeCuratedLoop category rest acc
    | none => scrapeCuratedLoop category rest acc

/-!
## `searchZara` and its result cache (`scraper.js` lines 27–63, 229–282)
-/

/-- Decimal digit character. -/
def digitChar (n : Nat) : Char := Char.ofNat (48 + n)

/-- Decimal representation (fuel-indexed). -/
def natToCharsAux : Nat → Nat → List Char
  | 0, _ => []
  | fuel + 1, n =>
    if n < 10 then [digitChar n]
    else natToCharsAux fuel (n / 10) ++ [digitChar (n % 10)]

/-- Decimal representation of a natural number (JS `${limit}`). -/
def natToChars (n : Nat) : List Char := natToCharsAux (n + 1) n

/-- `` `zara_search_${query.toLowerCase()}_${limit}` ``. -/
def searchKey (query : List Char) (limit : Nat) : List Char :=
  chars "zara_search_" ++ lowerStr query ++ chars "_" ++ natToChars limit

/-- The NodeCache instance: key → cached product list.  An entry being
present models it being within its 1-hour TTL. -/
def Cache := List (List Char × List Product)

/-- `cache.get(key)`. -/
def cacheGet (c : Cache) (key : List Char) : Option (List Product) :=
  match c with
  | [] => none
  | (k, v) :: t => if k = key then some v else cacheGet t key

/-- `cache.set(key, value)` (overwrite or insert). -/
def cacheSet (c : Cache) (key : List Char) (v : List Product) : Cache :=
  match c with
  | [] => [(key, v)]
  | (k, v') :: t => if k = key then (key, v) :: t else (k, v') :: cacheSet t key v

/-- The three hard-coded fallback products of `getMockProducts`
(`scraper.js` lines 232–275). -/
def mockProduct1 : Product :=
  { pid := some (chars "1"), name := chars "Essential Cotton T-Shirt"
    brand := some (chars "Zara"), site := some (chars "zara")
    price := some 2599, cottonPercentage := some 100
    materials := some (chars "100% Cotton"), color := some (chars "Black")
    image := some (chars "https://images.unsplash.com/photo-1521572163474-6864f9cf17ab?w=400")
    url := chars "https://www.zara.com/ca/en/product/essential-tshirt"
    category := some (chars "tshirts"), gender := some (chars "male") }

def mockProduct2 : Product :=
  { pid := some (chars "2"), name := chars "Premium Cotton Shirt"
    brand := some (chars "Zara"), site := some (chars "zara")
    price := some 3999, cottonPercentage := some 95
    materials := some (chars "95% Cotton, 5% Elastane"), color := some (chars "White")
    image := some (chars "https://images.unsplash.com/photo-1596755094514-f87e34085b2c?w=400")
    url := chars "https://www.zara.com/ca/en/product/premium-shirt"
    category := some (chars "shirts"), gender := some (chars "female") }

def mockProduct3 : Product :=
  { pid := some (chars "3"), name := chars "Cotton Midi Dress"
    brand := some (chars "Zara"), site := some (chars "zara")
    price := some 5999, cottonPercentage := some 92
    materials := some (chars "92% Cotton, 8% Polyester"), color := some (chars "Blue")
    image := some (chars "https://images.unsplash.com/photo-1595777457583-95e059d581b8?w=400")
    url := chars "https://www.zara.com/ca/en/product/cotton-dress"
    category := some (chars "dresses"), gender := some (chars "female") }

/-- JS `query.split(' ')` (split on the single space character, keeping
empty pieces; `""` yields `[""]`). -/
def splitSpaceJS : List Char → List (List Char)
  | [] => [[]]
  | c :: t =>
    if c = ' ' then [] :: splitSpaceJS t
    else
      match splitSpaceJS t with
      | w :: ws => (c :: w) :: ws
      | [] => [[c]]

/-- `getMockProducts(query)` (`scraper.js` lines 229–282): the three
mock products whose `name color category gender` text contains some
space-separated word of the lowercased query. -/
def getMockProducts (query : List Char) : List Product :=
  let queryLower := lowerStr query
  let queryWords := splitSpaceJS queryLower
  [mockProduct1, mockProduct2, mockProduct3].filter fun p =>
    let searchText := lowerStr (jsShow p.category |> fun cat =>
      p.name ++ [' '] ++ jsShow p.color ++ [' '] ++ cat ++ [' '] ++ jsShow p.gender)
    queryWords.any fun w => containsCh searchText w

/-- Outcome of `scraper.searchProducts(query, limit)` as observed by
`searchZara`: a product list, or a thrown error. -/
inductive ScrapeOutcome where
  | ok (ps : List Product)
  | error
deriving Repr

/-- `searchZara(query, limit)` (`scraper.js` lines 27–63) as a function
of the cache state and the scrape outcome.  Returns the result (an
`Except` to record whether a failure is propagated — the source `catch`
never rethrows), the new cache state, and whether the scraper was
invoked.  On a cache hit the cached list is returned unchanged; on a
miss the scraped products get colors, are cached only when non-empty,
and are returned; a scrape error yields the mock products, uncached. -/
def searchZara (cache : Cache) (query : List Char) (limit : Nat)
    (outcome : ScrapeOutcome) : Except Unit (List Product) × Cache × Bool :=
  let key := searchKey query limit
  match cacheGet cache key with
  | some v => (.ok v, cache, false)
  | none =>
    match outcome with
    | .error => (.ok (getMockProducts query), cache, true)
    | .ok ps =>
      let productsWithColor := ps.map withColor
      let cache' := if productsWithColor.isEmpty then cache
        else cacheSet cache key productsWithColor
      (.ok productsWithColor, cache', true)

/-!
## Theorems
-/

/-- **C1 (counterexample).** The claimed biconditional — `isCotton90 = true`
iff some *entry of the returned composition mapping* with a
cotton-containing fiber name has percentage ≥ 90 — is false at the input
`"95% Cotton, 5% Cotton"`: the duplicate fiber name overwrites the
mapping entry down to 5, yet `isCotton90` is computed from all match
occurrences and is `true`. -/
theorem parseComposition_mapping_iff_fails :
    ¬ ((parseComposition (chars "95% Cotton, 5% Cotton")).isCotton90 = true ↔
      ∃ e ∈ (parseComposition (chars "95% Cotton, 5% Cotton")).composition,
        containsCh e.1 cottonStr = true ∧ 90 ≤ e.2) := by decide

/-- **C1 (amended).** `parseComposition` returns `isCotton90 = true` iff
at least one *match occurrence* in the text whose (trimmed) fiber name
contains `"cotton"` has percentage ≥ 90 (duplicated fiber names
overwrite their mapping entry, but every occurrence counts for the
flag); in particular `"89% Cotton, 11% Elastane"` yields `false`,
`"90% Cotton, 10% Elastane"` yields `true`, and `""` yields an empty
mapping with `false`. -/
theorem parseComposition_isCotton90_iff :
    (∀ text : List Char,
      (parseComposition text).isCotton90 = true ↔
        ∃ m ∈ compMatches (lowerStr text),
          containsCh (trimCh m.2) cottonStr = true ∧ 90 ≤ m.1)
    ∧ (parseComposition (chars "89% Cotton, 11% Elastane")).isCotton90 = false
    ∧ (parseComposition (chars "90% Cotton, 10% Elastane")).isCotton90 = true
    ∧ parseComposition (chars "") = ⟨[], false⟩ := by
  refine ⟨fun text => ?_, by decide, by decide, by decide⟩
  simp only [parseComposition, collectCottonPercents, List.any_eq_true,
    List.mem_map, List.mem_filter, decide_eq_true_eq]
  constructor
  · rintro ⟨x, ⟨m, ⟨hm, hc⟩, rfl⟩, h90⟩
    exact ⟨m, hm, hc, h90⟩
  · rintro ⟨m, hm, hc, h90⟩
    exact ⟨m.1, ⟨m, ⟨hm, hc⟩, rfl⟩, h90⟩

/-- Scan lemma: if no position before `i` matches and position `i`
matches with value `v`, the fuelled scan returns `v`. -/
theorem getCottonPercentageF_first (fuel : Nat) :
    ∀ (s : List Char), s.length ≤ fuel →
      ∀ i v, (∀ j, j < i → cottonMatchAt (s.drop j) = none) →
        cottonMatchAt (s.drop i) = some v →
        getCottonPercentageF fuel s = v := by
  induction fuel with
  | zero =>
    intro s hs i v _ hi
    interval_cases hlen : s.length
    · rw [List.length_eq_zero] at hlen
      subst hlen
      simp [List.drop_nil, cottonMatchAt] at hi
  | succ fuel ih =>
    intro s hs i v hnone hi
    match s with
    | [] => simp [List.drop_nil, cottonMatchAt] at hi
    | c :: t =>
      match i with
      | 0 =>
        simp only [List.drop_zero] at hi
        simp [getCottonPercentageF, hi]
      | i + 1 =>
        have h0 := hnone 0 (Nat.succ_pos i)
        simp only [List.drop_zero] at h0
        simp only [getCottonPercentageF, h0]
        exact ih t (by simp only [List.length_cons] at hs; omega)
          i v (fun j hj => by simpa using hnone (j + 1) (Nat.succ_lt_succ hj))
          (by simpa using hi)

/-- Scan lemma: if no position matches, the fuelled scan returns 0. -/
theorem getCottonPercentageF_none (fuel : Nat) :
    ∀ (s : List Char), (∀ i, cottonMatchAt (s.drop i) = none) →
      getCottonPercentageF fuel s = 0 := by
  induction fuel with
  | zero => intro s _; cases s <;> rfl
  | succ fuel ih =>
    intro s hnone
    match s with
    | [] => rfl
    | c :: t =>
      have h0 := hnone 0
      simp only [List.drop_zero] at h0
      simp only [getCottonPercentageF, h0]
      exact ih t fun i => by simpa using hnone (i + 1)

/-- **C4.** `getCottonPercentage` returns the integer of the *first*
(leftmost) occurrence matching `<integer>%\s*cotton` in the lowercased
text, ignoring later occurrences, and returns 0 when no position
matches (in particular for empty input). -/
theorem getCottonPercentage_first_occurrence :
    (∀ (text : List Char) (i v : Nat),
      (∀ j, j < i → cottonMatchAt ((lowerStr text).drop j) = none) →
      cottonMatchAt ((lowerStr text).drop i) = some v →
      getCottonPercentage text = v)
    ∧ (∀ text : List Char,
        (∀ i, cottonMatchAt ((lowerStr text).drop i) = none) →
        getCottonPercentage text = 0)
    ∧ getCottonPercentage (chars "") = 0 := by
  refine ⟨fun text i v hnone hi => ?_, fun text hnone => ?_, by decide⟩
  · exact getCottonPercentageF_first text.length (lowerStr text)
      (by simp [lowerStr]) i v hnone hi
  · exact getCottonPercentageF_none text.length (lowerStr text) hnone

/-- Witness for C4: at `"made of 92% cotton"`, position 8 is the first
match and the function returns 92. -/
theorem getCottonPercentage_first_occurrence_witness :
    getCottonPercentage (chars "made of 92% cotton") = 92 :=
  getCottonPercentage_first_occurrence.1 (chars "made of 92% cotton") 8 92
    (by decide) (by decide)

/-- **C5.** Round trip of the category variation table: for every
canonical category `c` and every variation `v` in
`getCategoryVariations c`, `normalizeCategory v = c`. -/
theorem categoryVariations_roundTrip :
    ∀ c ∈ [chars "tops", chars "pants", chars "skirts", chars "dresses"],
      ∀ v ∈ getCategoryVariations c,
        normalizeCategory (some v) = some c := by decide

/-- Witness for C5 at `c = "tops"`, `v = "blouse"`. -/
theorem categoryVariations_roundTrip_witness :
    chars "tops" ∈ [chars "tops", chars "pants", chars "skirts", chars "dresses"] ∧
    chars "blouse" ∈ getCategoryVariations (chars "tops") ∧
    normalizeCategory (some (chars "blouse")) = some (chars "tops") :=
  ⟨by decide, by decide,
    categoryVariations_roundTrip (chars "tops") (by decide) (chars "blouse") (by decide)⟩

/-- **C6.** `normalizeCategory` tests the tops rule before the other
categories (any non-empty input satisfying the tops signal maps to
`"tops"`, whatever other signals hold), `"t-shirt"` maps to `"tops"`,
`"blue jeans"` maps to `"pants"`, any non-empty input matching no rule
is returned as its lowercased self, and absent input yields `null`. -/
theorem normalizeCategory_priority :
    (∀ s : List Char, s ≠ [] → topsSignal (lowerStr s) = true →
      normalizeCategory (some s) = some (chars "tops"))
    ∧ normalizeCategory (some (chars "t-shirt")) = some (chars "tops")
    ∧ normalizeCategory (some (chars "blue jeans")) = some (chars "pants")
    ∧ (∀ s : List Char, s ≠ [] →
        topsSignal (lowerStr s) = false → pantsSignal (lowerStr s) = false →
        skirtsSignal (lowerStr s) = false → dressesSignal (lowerStr s) = false →
        normalizeCategory (some s) = some (lowerStr s))
    ∧ normalizeCategory none = none := by
  refine ⟨fun s hs ht => ?_, by decide, by decide, fun s hs h1 h2 h3 h4 => ?_, rfl⟩
  · simp [normalizeCategory, hs, ht]
  · simp [normalizeCategory, hs, h1, h2, h3, h4]

/-- Witness for C6: the tops-priority clause at `"tee shirt"` (which
also contains a pants-free tops signal) and the passthrough clause at
`"unknown-garment"`. -/
theorem normalizeCategory_priority_witness :
    (chars "tee shirt" ≠ [] ∧ topsSignal (lowerStr (chars "tee shirt")) = true ∧
      normalizeCategory (some (chars "tee shirt")) = some (chars "tops")) ∧
    (chars "unknown-garment" ≠ [] ∧
      normalizeCategory (some (chars "unknown-garment")) =
        some (lowerStr (chars "unknown-garment"))) :=
  ⟨⟨by decide, by decide,
      normalizeCategory_priority.1 (chars "tee shirt") (by decide) (by decide)⟩,
    ⟨by decide,
      normalizeCategory_priority.2.2.2.1 (chars "unknown-garment") (by decide)
        (by decide) (by decide) (by decide) (by decide)⟩⟩

/-- **C3 (counterexample).** On the claimed scenario (name
`"Cotton Crew Tee"`, woman-product URL, composition
`"Shell: 95% Cotton, 5% Elastane."`) the builder's
`determineCategory` returns `"tshirts"` (the `tee`/`tshirt` rule), not
`"tops"` as claimed. -/
theorem buildExample_category_not_tops :
    determineCategory (chars "https://www.zara.com/ca/en/woman/product/p123456.html")
        (chars "Cotton Crew Tee") (chars "Shell: 95% Cotton, 5% Elastane.")
      = chars "tshirts" ∧
    chars "tshirts" ≠ chars "tops" := by decide

/-- **C3 (amended).** Building a product from raw text
`"Shell: 95% Cotton, 5% Elastane."`, a `/woman/product/p123456.html`
URL and name `"Cotton Crew Tee"` yields `category = "tshirts"` (from
`"tee"` in the name), `gender = "female"` (from `"/woman"`),
`cottonPercentage = 95`, `isCotton90 = true`, and
`extractColor = "Various"` (no color keyword present). -/
theorem buildExample_amended :
    (assembleProduct (chars "https://www.zara.com/ca/en/woman/product/p123456.html")
      { name := chars "Cotton Crew Tee", price := 3090,
        materials := chars "Shell: 95% Cotton, 5% Elastane.",
        images := [], sizes := [] }).map
        (fun p => (p.category, p.gender, p.cottonPercentage, p.is_cotton_90))
      = some (some (chars "tshirts"), some (chars "female"), some 95, some true) ∧
    extractColor (chars "Cotton Crew Tee")
        (chars "Shell: 95% Cotton, 5% Elastane.") = chars "Various" := by decide

/-- After an upsert, the first record under the document's URL is the
fresh document, with `createdAt` preserved from the previously first
record when one existed and set to `now` otherwise. -/
theorem findUrl_upsertGo (d : ProductDoc) (now : Nat) (u : List Char)
    (hu : d.url = u) :
    ∀ store : List StoredDoc,
      findUrl (upsertGo d now store) u =
        some ⟨d, ((findUrl store u).map (·.createdAt)).getD now⟩ := by
  intro store
  subst hu
  induction store with
  | nil => simp [upsertGo, findUrl, List.find?]
  | cons r t ih =>
    by_cases h : r.doc.url = d.url
    · simp [upsertGo, findUrl, List.find?, h]
    · simpa [upsertGo, findUrl, List.find?, h] using ih

/-- Upserting never duplicates: the record count under the document's
URL becomes 1 on first insert and is unchanged otherwise. -/
theorem countUrl_upsertGo (d : ProductDoc) (now : Nat) (u : List Char)
    (hu : d.url = u) :
    ∀ store : List StoredDoc,
      countUrl (upsertGo d now store) u =
        if countUrl store u = 0 then 1 else countUrl store u := by
  intro store
  subst hu
  induction store with
  | nil => simp [upsertGo, countUrl]
  | cons r t ih =>
    by_cases h : r.doc.url = d.url
    · simp [upsertGo, countUrl, h, List.filter]
    · simp only [upsertGo, h, if_false, countUrl, List.filter_cons,
        decide_eq_true_eq] at ih ⊢
      simp [h, ih]

/-- The document written by `productToDict` carries the product's URL
and the call instant as `updatedAt`. -/
theorem productToDict_url_updatedAt (p : Product) (now : Nat) :
    (productToDict p now).url = p.url ∧ (productToDict p now).updatedAt = now :=
  ⟨rfl, rfl⟩

/-- **C2.** In a store holding at most one record for `p`'s URL,
upserting `p` at `t1` and again at `t2 ≥ t1` leaves exactly one record
for that URL; its `createdAt` is identical across both calls (set only
on first insert) and its `updatedAt` moves from `t1` to `t2 ≥ t1`. -/
theorem upsert_twice_idempotent (store : List StoredDoc) (p : Product)
    (t1 t2 : Nat) (hle : t1 ≤ t2) (hwf : countUrl store p.url ≤ 1) :
    countUrl (upsertProduct (upsertProduct store p t1) p t2) p.url = 1 ∧
    ∃ r1 r2,
      findUrl (upsertProduct store p t1) p.url = some r1 ∧
      findUrl (upsertProduct (upsertProduct store p t1) p t2) p.url = some r2 ∧
      r2.createdAt = r1.createdAt ∧
      r1.doc.updatedAt = t1 ∧ r2.doc.updatedAt = t2 ∧
      r1.doc.updatedAt ≤ r2.doc.updatedAt := by
  have hf1 := findUrl_upsertGo (productToDict p t1) t1 p.url rfl store
  have hf2 := findUrl_upsertGo (productToDict p t2) t2 p.url rfl
    (upsertGo (productToDict p t1) t1 store)
  have hc1 := countUrl_upsertGo (productToDict p t1) t1 p.url rfl store
  have hc2 := countUrl_upsertGo (productToDict p t2) t2 p.url rfl
    (upsertGo (productToDict p t1) t1 store)
  rw [hf1] at hf2
  constructor
  · show countUrl (upsertGo (productToDict p t2) t2
      (upsertGo (productToDict p t1) t1 store)) p.url = 1
    rw [hc2, hc1]
    rcases Nat.lt_or_ge (countUrl store p.url) 1 with h0 | h1
    · simp [Nat.lt_one_iff.mp h0]
    · have : countUrl store p.url = 1 := le_antisymm hwf h1
      simp [this]
  · exact ⟨_, _, hf1, hf2, by simp, rfl, rfl, hle⟩

/-- **C7 (counterexample).** The stored `is_cotton_90` flag is *not*
derived strictly from the parsed composition nor independent of
`cottonPercentage`: for a product lacking the `is_cotton_90` field
(as the mock fallback products that reach persistence do),
`productToDict` substitutes the `cottonPercentage >= 90` comparison —
two products with empty composition text differing only in
`cottonPercentage` store different flags, and the stored flag differs
from `parseComposition` on the stored raw composition. -/
theorem productToDict_flag_substituted :
    (productToDict
      { name := chars "A", url := chars "u", cottonPercentage := some 95,
        materials := some [] } 0).is_cotton_90 = true ∧
    (productToDict
      { name := chars "A", url := chars "u", cottonPercentage := some 10,
        materials := some [] } 0).is_cotton_90 = false ∧
    (parseComposition (productToDict
      { name := chars "A", url := chars "u", cottonPercentage := some 95,
        materials := some [] } 0).composition_raw).isCotton90 = false := by decide

/-- **C7 (amended).** `productToDict` stores a defined `is_cotton_90`
field as-is; in particular for every product built by the scraper
(`extractProductInfo`) the stored flag is exactly the value
`parseComposition` computed from the raw materials text.  Only for
products lacking the field (e.g. the mock fallback ones) does it
substitute the `cottonPercentage >= 90` comparison. -/
theorem is_cotton_90_stored_as_is :
    (∀ (p : Product) (now : Nat) (b : Bool), p.is_cotton_90 = some b →
      (productToDict p now).is_cotton_90 = b)
    ∧ (∀ (url : List Char) (d : RawProductData) (prod : Product) (now : Nat),
        assembleProduct url d = some prod →
        (productToDict prod now).is_cotton_90 =
          (parseComposition d.materials).isCotton90) := by
  constructor
  · intro p now b hb
    simp [productToDict, hb]
  · intro url d prod now h
    unfold assembleProduct at h
    split at h
    · exact absurd h (by simp)
    · obtain rfl := (Option.some.inj h).symm
      rfl

/-- Witness for C7: a product with the flag set is stored as-is, and a
concrete assembled product round-trips the parser's flag. -/
theorem is_cotton_90_stored_as_is_witness :
    (productToDict
      { name := chars "A", url := chars "u",
        is_cotton_90 := some true } 5).is_cotton_90 = true ∧
    (productToDict
      { name := chars "A", url := chars "u",
        is_cotton_90 := some false } 5).is_cotton_90 = false :=
  ⟨is_cotton_90_stored_as_is.1 _ 5 true rfl,
    is_cotton_90_stored_as_is.1 _ 5 false rfl⟩

/-- Once the target count is reached, the category loop stops and
returns the accumulator. -/
theorem scrapeLoop_stopped (count : Nat) (os : List FetchOutcome)
    (acc : List Product) (found : Nat) (h : count ≤ found) :
    scrapeZaraCategoryLoop count os acc found = acc := by
  cases os with
  | nil => rfl
  | cons o rest => simp [scrapeZaraCategoryLoop, h]

/-- Removing a single failed (null) or thrown fetch outcome from the
`scrapeZaraCategory` batch does not change the result: the failure is
skipped and processing continues. -/
theorem scrapeLoop_skip (count : Nat) (o : FetchOutcome)
    (ho : o = .failed ∨ o = .threw) :
    ∀ (xs ys : List FetchOutcome) (acc : List Product) (found : Nat),
      scrapeZaraCategoryLoop count (xs ++ o :: ys) acc found =
        scrapeZaraCategoryLoop count (xs ++ ys) acc found := by
  intro xs
  induction xs with
  | nil =>
    intro ys acc found
    by_cases h : count ≤ found
    · rw [scrapeLoop_stopped count _ acc found h,
        scrapeLoop_stopped count _ acc found h]
    · rcases ho with rfl | rfl <;> simp [scrapeZaraCategoryLoop, h]
  | cons x xs ih =>
    intro ys acc found
    by_cases h : count ≤ found
    · rw [scrapeLoop_stopped count _ acc found h,
        scrapeLoop_stopped count _ acc found h]
    · cases x <;> simp [scrapeZaraCategoryLoop, h, ih]

/-- The category loop only ever appends: the accumulator is a prefix of
the result (products accepted before any later failure are retained). -/
theorem scrapeLoop_prefix (count : Nat) :
    ∀ (os : List FetchOutcome) (acc : List Product) (found : Nat),
      acc <+: scrapeZaraCategoryLoop count os acc found := by
  intro os
  induction os with
  | nil => intro acc found; exact List.prefix_rfl
  | cons o rest ih =>
    intro acc found
    by_cases h : count ≤ found
    · rw [scrapeLoop_stopped count _ acc found h]
    · cases o with
      | ok p =>
        simp only [scrapeZaraCategoryLoop, if_neg h]
        split
        · exact (List.prefix_append acc _).trans (ih _ _)
        · exact ih _ _
      | failed => simpa only [scrapeZaraCategoryLoop, if_neg h] using ih _ _
      | threw => simpa only [scrapeZaraCategoryLoop, if_neg h] using ih _ _

/-- Removing a single null fetch outcome from the curated batch does
not change the result. -/
theorem curatedLoop_skip (category : List Char) :
    ∀ (xs ys : List (Option Product)) (acc : List Product),
      scrapeCuratedLoop category (xs ++ none :: ys) acc =
        scrapeCuratedLoop category (xs ++ ys) acc := by
  intro xs
  induction xs with
  | nil => intro ys acc; simp [scrapeCuratedLoop]
  | cons x xs ih =>
    intro ys acc
    cases x <;> simp [scrapeCuratedLoop, ih]

/-- The curated loop only ever appends to the accumulator. -/
theorem curatedLoop_prefix (category : List Char) :
    ∀ (os : List (Option Product)) (acc : List Product),
      acc <+: scrapeCuratedLoop category os acc := by
  intro os
  induction os with
  | nil => intro acc; exact List.prefix_rfl
  | cons o rest ih =>
    intro acc
    cases o with
    | none => simpa only [scrapeCuratedLoop] using ih _
    | some p =>
      simp only [scrapeCuratedLoop]
      split
      · exact (List.prefix_append acc _).trans (ih _)
      · exact ih _

/-- **C8.** In both ingestion loops a single URL's fetch/build failure
(a null return, or — in `scrapeZaraCategory`, whose iterations are
individually guarded by `try/catch ... continue` — a thrown error) is
skipped while the remaining URLs are processed exactly as if the
failing URL were absent, and all products accepted before the failure
remain a prefix of the returned result. -/
theorem ingestion_single_failure_skipped :
    (∀ (count : Nat) (o : FetchOutcome), o = .failed ∨ o = .threw →
      ∀ (xs ys : List FetchOutcome) (acc : List Product) (found : Nat),
        scrapeZaraCategoryLoop count (xs ++ o :: ys) acc found =
          scrapeZaraCategoryLoop count (xs ++ ys) acc found)
    ∧ (∀ (count : Nat) (os : List FetchOutcome) (acc : List Product) (found : Nat),
        acc <+: scrapeZaraCategoryLoop count os acc found)
    ∧ (∀ (category : List Char) (xs ys : List (Option Product)) (acc : List Product),
        scrapeCuratedLoop category (xs ++ none :: ys) acc =
          scrapeCuratedLoop category (xs ++ ys) acc)
    ∧ (∀ (category : List Char) (os : List (Option Product)) (acc : List Product),
        acc <+: scrapeCuratedLoop category os acc) :=
  ⟨scrapeLoop_skip, scrapeLoop_prefix, curatedLoop_skip, curatedLoop_prefix⟩

/-- Witness for C8: dropping a failed fetch between two successful ones
leaves a concrete two-URL batch result unchanged. -/
theorem ingestion_single_failure_skipped_witness :
    scrapeZaraCategoryLoop 5
        ([FetchOutcome.ok mockProduct1] ++ FetchOutcome.failed ::
          [FetchOutcome.ok mockProduct3]) [] 0 =
      scrapeZaraCategoryLoop 5
        ([FetchOutcome.ok mockProduct1] ++ [FetchOutcome.ok mockProduct3]) [] 0 :=
  ingestion_single_failure_skipped.1 5 .failed (Or.inl rfl)
    [FetchOutcome.ok mockProduct1] [FetchOutcome.ok mockProduct3] [] 0

/-- **C9 (counterexample).** When the scrape throws, `searchZara` does
*not* propagate the failure: on an empty cache with query `"shirt"` it
returns the non-empty fabricated mock-product list. -/
theorem searchZara_error_returns_mock :
    (searchZara [] (chars "shirt") 10 .error).1 =
      .ok [mockProduct1, mockProduct2] ∧
    getMockProducts (chars "shirt") ≠ [] := by
  exact ⟨rfl, by decide⟩

/-- **C9 (amended).** When the scrape fails with an error and the key
is not cached, `searchZara` swallows the error and returns the mock
products matching the query (a fabricated fallback, left uncached),
never propagating the failure. -/
theorem searchZara_error_swallowed (cache : Cache) (query : List Char)
    (limit : Nat) (h : cacheGet cache (searchKey query limit) = none) :
    searchZara cache query limit .error =
      (.ok (getMockProducts query), cache, true) := by
  simp [searchZara, h]

/-- Witness for C9 on the empty cache with query `"dress"`. -/
theorem searchZara_error_swallowed_witness :
    cacheGet [] (searchKey (chars "dress") 5) = none ∧
    searchZara [] (chars "dress") 5 .error =
      (.ok (getMockProducts (chars "dress")), [], true) :=
  ⟨rfl, searchZara_error_swallowed [] (chars "dress") 5 rfl⟩

/-- An entry just written is read back. -/
theorem cacheGet_cacheSet_self (k : List Char) (v : List Product) :
    ∀ c : Cache, cacheGet (cacheSet c k v) k = some v := by
  intro c
  induction c with
  | nil => simp [cacheSet, cacheGet]
  | cons e t ih =>
    by_cases h : e.1 = k
    · simp [cacheSet, cacheGet, h]
    · simpa [cacheSet, cacheGet, h] using ih

/-- A read after a write returns the written value or an old one. -/
theorem cacheGet_cacheSet_cases (k k' : List Char) (v v' : List Product) :
    ∀ c : Cache, cacheGet (cacheSet c k v) k' = some v' →
      v' = v ∨ cacheGet c k' = some v' := by
  intro c
  induction c with
  | nil =>
    intro h
    simp only [cacheSet, cacheGet] at h
    split at h
    · exact Or.inl (Option.some.inj h).symm
    · simp at h
  | cons e t ih =>
    intro h
    by_cases he : e.1 = k
    · by_cases hk : k = k'
      · subst hk
        simp only [cacheSet, if_pos he, cacheGet, if_pos rfl] at h
        exact Or.inl (Option.some.inj h).symm
      · simp only [cacheSet, if_pos he, cacheGet, if_neg hk] at h
        refine Or.inr ?_
        simp only [cacheGet, if_neg fun hh => hk (he.symm.trans hh)]
        exact h
    · simp only [cacheSet, if_neg he, cacheGet] at h
      by_cases hk' : e.1 = k'
      · rw [if_pos hk'] at h
        exact Or.inr (by simp only [cacheGet, if_pos hk']; exact h)
      · rw [if_neg hk'] at h
        rcases ih h with h1 | h2
        · exact Or.inl h1
        · exact Or.inr (by simp only [cacheGet, if_neg hk']; exact h2)

/-- **C10.** The `searchZara` cache is only ever populated with
non-empty product lists: a scrape yielding zero products writes nothing
(the cache state is unchanged, so an identical later call re-scrapes),
while after a non-empty scrape an identical call against the resulting
cache returns the same colored list unchanged without invoking the
scraper; and every reachable cache state keeps the no-empty-entry
invariant. -/
theorem searchZara_cache_nonempty :
    (∀ (cache : Cache) (query : List Char) (limit : Nat),
      cacheGet cache (searchKey query limit) = none →
      searchZara cache query limit (.ok []) = (.ok [], cache, true))
    ∧ (∀ (cache : Cache) (query : List Char) (limit : Nat) (ps : List Product),
        cacheGet cache (searchKey query limit) = none → ps ≠ [] →
        (searchZara cache query limit (.ok ps)).1 = .ok (ps.map withColor) ∧
        ∀ outcome,
          searchZara (searchZara cache query limit (.ok ps)).2.1 query limit outcome
            = (.ok (ps.map withColor),
                (searchZara cache query limit (.ok ps)).2.1, false))
    ∧ (∀ (cache : Cache) (query : List Char) (limit : Nat) (outcome : ScrapeOutcome),
        (∀ k v, cacheGet cache k = some v → v ≠ []) →
        ∀ k v, cacheGet (searchZara cache query limit outcome).2.1 k = some v →
          v ≠ []) := by
  refine ⟨fun cache query limit h => ?_, fun cache query limit ps h hps => ?_,
    fun cache query limit outcome hinv k v hv => ?_⟩
  · simp [searchZara, h]
  · have hmap : (ps.map withColor).isEmpty = false := by
      cases ps with
      | nil => exact absurd rfl hps
      | cons a t => rfl
    constructor
    · simp [searchZara, h]
    · intro outcome
      have hc' : (searchZara cache query limit (.ok ps)).2.1 =
          cacheSet cache (searchKey query limit) (ps.map withColor) := by
        simp [searchZara, h, hmap]
      rw [hc']
      have hget := cacheGet_cacheSet_self (searchKey query limit)
        (ps.map withColor) cache
      simp [searchZara, hget]
  · rcases hcase : cacheGet cache (searchKey query limit) with _ | w
    · cases outcome with
      | error =>
        simp only [searchZara, hcase] at hv
        exact hinv k v hv
      | ok ps =>
        cases hmap : (ps.map withColor).isEmpty with
        | false =>
          simp only [searchZara, hcase, hmap, Bool.false_eq_true, if_false] at hv
          rcases cacheGet_cacheSet_cases (searchKey query limit) k
              (ps.map withColor) v cache hv with rfl | hold
          · intro hveq
            rw [hveq] at hmap
            simp [List.isEmpty] at hmap
          · exact hinv k v hold
        | true =>
          simp only [searchZara, hcase, hmap, if_true] at hv
          exact hinv k v hv
    · simp only [searchZara, hcase] at hv
      exact hinv k v hv

/-- Witness for C10: on the empty cache an empty scrape leaves the
cache empty, and a one-product scrape is cached and served back without
scraping. -/
theorem searchZara_cache_nonempty_witness :
    cacheGet [] (searchKey (chars "tee") 4) = none ∧
    searchZara [] (chars "tee") 4 (.ok []) = (.ok [], [], true) ∧
    (searchZara (searchZara [] (chars "tee") 4 (.ok [mockProduct1])).2.1
        (chars "tee") 4 .error
      = (.ok ([mockProduct1].map withColor),
          (searchZara [] (chars "tee") 4 (.ok [mockProduct1])).2.1, false)) :=
  ⟨rfl, searchZara_cache_nonempty.1 [] (chars "tee") 4 rfl,
    (searchZara_cache_nonempty.2.1 [] (chars "tee") 4 [mockProduct1] rfl
      (by decide)).2 .error⟩

/-- Witness for C2 on the empty store at times 3 ≤ 7 with a concrete
product. -/
theorem upsert_twice_idempotent_witness :
    (3 ≤ 7 ∧ countUrl [] (chars "u") ≤ 1) ∧
    countUrl (upsertProduct (upsertProduct []
      { name := chars "Tee", url := chars "u" } 3)
      { name := chars "Tee", url := chars "u" } 7) (chars "u") = 1 :=
  ⟨⟨by decide, by decide⟩,
    (upsert_twice_idempotent [] { name := chars "Tee", url := chars "u" } 3 7
      (by decide) (by decide)).1⟩

end CottonFinder
